import Mathlib

/-!
Verification development for the obj-overlap-cleaner repository.

The embedding models the Rust source shallowly:

* `f32`/`f64` values are modelled as exact rationals (`ℚ`).  The only place
  where an IEEE NaN can originate in the modelled code paths is the
  normalization of a zero cross product inside `vertex_overlapping`
  (`model.rs`); that NaN and its propagation through subsequent dot products
  are modelled by `Option ℚ` / `Option Vec3q`, with `none` playing the role
  of NaN.  IEEE comparisons against NaN are false, which `ogt` reproduces.
* `f64::sqrt` is irrational on most inputs, so it is passed as an explicit
  parameter `sq : ℚ → ℚ`; all structural theorems hold for every `sq`, and
  concrete witnesses instantiate `sq` with `sqT`, which agrees with the real
  square root on every value the witnesses exercise (perfect squares).
* Rust `HashSet` values that are only ever queried for membership
  (`indices_to_delete`, the mark phase sets) are modelled as `List ℕ` with
  membership semantics; `Vec<usize>` / `Vec<u32>` become `List ℕ`.
* panics (`expect`, `unwrap` on preconditions) are modelled by `Option`
  results, `none` meaning the procedure aborts.
* the nested `HashMap<i32, HashMap<i32, HashMap<i32, Vec<u32>>>>` of
  `grid.rs` is modelled as a total function from cell coordinates to the
  (possibly empty) cell contents; a missing cell is the empty list.
-/

/-- Rational 3-vector, modelling `Vec3` (`three_d_asset::Vector3`). -/
structure Vec3q where
  x : ℚ
  y : ℚ
  z : ℚ
deriving DecidableEq, Repr

/-- Rational 2-vector, modelling `Vector2<f32>` (UV coordinates). -/
structure Vec2q where
  u : ℚ
  v : ℚ
deriving DecidableEq, Repr

instance : Add Vec3q := ⟨fun a b => ⟨a.x + b.x, a.y + b.y, a.z + b.z⟩⟩

instance : Sub Vec3q := ⟨fun a b => ⟨a.x - b.x, a.y - b.y, a.z - b.z⟩⟩

/-- Componentwise scalar multiple (`v * c` on `cgmath` vectors). -/
def Vec3q.smul (c : ℚ) (a : Vec3q) : Vec3q := ⟨c * a.x, c * a.y, c * a.z⟩

/-- Dot product (`InnerSpace::dot`). -/
def Vec3q.dot (a b : Vec3q) : ℚ := a.x * b.x + a.y * b.y + a.z * b.z

/-- Cross product (`Vector3::cross`). -/
def Vec3q.cross (a b : Vec3q) : Vec3q :=
  ⟨a.y * b.z - a.z * b.y, a.z * b.x - a.x * b.z, a.x * b.y - a.y * b.x⟩

theorem Vec3q.add_def (a b : Vec3q) :
    a + b = ⟨a.x + b.x, a.y + b.y, a.z + b.z⟩ := rfl

theorem Vec3q.sub_def (a b : Vec3q) :
    a - b = ⟨a.x - b.x, a.y - b.y, a.z - b.z⟩ := rfl

/-- Rust `as i32` float-to-int cast: rounding toward zero. -/
def truncQ (q : ℚ) : ℤ := if q < 0 then Int.ceil q else Int.floor q

/-- Square-root table used to instantiate the abstract `sq` parameter in
concrete witnesses; it agrees with the mathematical (and IEEE `f64`) square
root on every input exercised by the witnesses below, which are all perfect
squares. -/
def sqT (q : ℚ) : ℚ :=
  if q = 0 then 0 else if q = 1 then 1 else if q = 9 then 3 else if q = 16 then 4
  else if q = 25 then 5 else if q = 400 then 20 else 0

/-- `chunks_exact(3)` over a flat index buffer: consecutive triples, the
remainder dropped. -/
def chunks3 : List ℕ → List (ℕ × ℕ × ℕ)
  | a :: b :: c :: rest => (a, b, c) :: chunks3 rest
  | _ => []

/-- The three corner indices of a triangle triple, in order (the `tri` slice
of `chunks_exact(3)`). -/
def tripleList (t : ℕ × ℕ × ℕ) : List ℕ := [t.1, t.2.1, t.2.2]

/- ### grid.rs : IndexGrid -/

/-- `GRID_RESOLUTION` (`grid.rs`). -/
def GRID_RESOLUTION : ℚ := 10

/-- The sparse uniform grid of `grid.rs`: nested hash maps modelled as a
total function; absent cells are `[]` (a `get_cell` miss contributes
nothing to queries). -/
def IndexGrid : Type := ℤ × ℤ × ℤ → List ℕ

/-- `IndexGrid::new`. -/
def IndexGrid.new : IndexGrid := fun _ => []

/-- `IndexGrid::extend`: append the slice to the cell at `p`. -/
def IndexGrid.extendCell (g : IndexGrid) (p : ℤ × ℤ × ℤ) (tri : List ℕ) : IndexGrid :=
  fun q => if q = p then g q ++ tri else g q

/-- Cell coordinate of a point: `(x * GRID_RESOLUTION as f32) as i32`
componentwise. -/
def gridCoord (p : Vec3q) : ℤ × ℤ × ℤ :=
  (truncQ (p.x * GRID_RESOLUTION), truncQ (p.y * GRID_RESOLUTION), truncQ (p.z * GRID_RESOLUTION))

/-- One iteration of the triangle loop of `IndexGrid::populate_from_trimesh`:
register the corner-index triple in the cell of `p0`, in the cell of `p1` if
it differs, and in the cell of `p2` if it differs from both. -/
def IndexGrid.insertTriangle (g : IndexGrid) (positions : List Vec3q) (t : ℕ × ℕ × ℕ) :
    IndexGrid :=
  let c0 := gridCoord (positions.getD t.1 ⟨0, 0, 0⟩)
  let c1 := gridCoord (positions.getD t.2.1 ⟨0, 0, 0⟩)
  let c2 := gridCoord (positions.getD t.2.2 ⟨0, 0, 0⟩)
  let g1 := g.extendCell c0 (tripleList t)
  let g2 := if c1 ≠ c0 then g1.extendCell c1 (tripleList t) else g1
  if c2 ≠ c1 ∧ c2 ≠ c0 then g2.extendCell c2 (tripleList t) else g2

/-- `IndexGrid::populate_from_trimesh` applied to a fresh grid, as done in
`MeshContainer::new`. -/
def IndexGrid.populateFromTriMesh (positions : List Vec3q) (indices : List ℕ) : IndexGrid :=
  (chunks3 indices).foldl (fun g t => g.insertTriangle positions t) IndexGrid.new

/-- Inclusive integer interval `[a, b]` as a list (the Rust
`a..(b + 1)` loop range). -/
def intRange (a b : ℤ) : List ℤ :=
  (List.range (b + 1 - a).toNat).map (fun k : ℕ => a + (k : ℤ))

/-- `IndexGrid::get_indices`: concatenate the contents of every cell in the
inclusive cell box spanned by `point ± threshold`. -/
def IndexGrid.getIndices (g : IndexGrid) (p : Vec3q) (threshold : ℚ) : List ℕ :=
  let pmin := gridCoord (p - ⟨threshold, threshold, threshold⟩)
  let pmax := gridCoord (p + ⟨threshold, threshold, threshold⟩)
  (intRange pmin.1 pmax.1).flatMap fun cx =>
    (intRange pmin.2.1 pmax.2.1).flatMap fun cy =>
      (intRange pmin.2.2 pmax.2.2).flatMap fun cz => g (cx, cy, cz)

/- ### model.rs : data model -/

/-- `three_d_asset::TriMesh`, restricted to the only encodings the program
accepts (`Positions::F32`, `Indices::U32`; other encodings panic in every
code path modelled here).  Tangents are `Vector4` in the source; their
contents are irrelevant to every claim, only presence matters. -/
structure TriMeshQ where
  positions : List Vec3q
  indices : List ℕ
  uvs : Option (List Vec2q)
  normals : Option (List Vec3q)
  tangents : Option (List (ℚ × ℚ × ℚ × ℚ))
  colors : Option (List Vec3q)
deriving DecidableEq

/-- Modelled from the spec: `AABB` is a pair (min, max) of `Vec3`.  The
`three_d_asset::AxisAlignedBoundingBox` implementation is not part of this
repository's sources. -/
structure AABBq where
  minv : Vec3q
  maxv : Vec3q
deriving DecidableEq

/-- Modelled from the spec: AABB "is-inside-point" containment test
(`AxisAlignedBoundingBox::is_inside`), componentwise `min ≤ p ≤ max`. -/
def AABBq.isInside (b : AABBq) (p : Vec3q) : Bool :=
  decide (b.minv.x ≤ p.x) && decide (p.x ≤ b.maxv.x) &&
  decide (b.minv.y ≤ p.y) && decide (p.y ≤ b.maxv.y) &&
  decide (b.minv.z ≤ p.z) && decide (p.z ≤ b.maxv.z)

/-- Modelled from the spec: AABB intersection
(`AxisAlignedBoundingBox::intersection`), returning an optional AABB —
the componentwise overlap box when it is non-empty, `none` otherwise. -/
def AABBq.intersection (a b : AABBq) : Option AABBq :=
  let mn : Vec3q := ⟨max a.minv.x b.minv.x, max a.minv.y b.minv.y, max a.minv.z b.minv.z⟩
  let mx : Vec3q := ⟨min a.maxv.x b.maxv.x, min a.maxv.y b.maxv.y, min a.maxv.z b.maxv.z⟩
  if mn.x ≤ mx.x ∧ mn.y ≤ mx.y ∧ mn.z ≤ mx.z then some ⟨mn, mx⟩ else none

/-- `MeshContainer` (`model.rs`).  The material is opaque and carried
through unchanged. -/
structure MeshContainer where
  mesh : TriMeshQ
  aabb : AABBq
  material : Unit
  overlapping_vertice_idxs : List ℕ
  to_be_deleted : Bool
  mean_edge_len : Option ℚ
  indices_to_delete : List ℕ
  index_grid : Option IndexGrid

/-- `EPSILON` (`model.rs`): `1e-9`. -/
def EPSILON : ℚ := 1 / 1000000000

/-- IEEE-faithful `>` against a possibly-NaN (`none`) left operand: any
comparison with NaN is false, so a NaN distance or edge dot product never
triggers the `continue`. -/
def ogt (a : Option ℚ) (b : ℚ) : Bool :=
  match a with
  | none => false
  | some a => decide (b < a)

/-- The body of the triangle loop of `vertex_overlapping` (`model.rs`): the
chain of early `continue`s is written as a conjunction of the negated
rejection tests, which is equivalent.  `normalize` of the cross product is
`none` (NaN) exactly when the cross product is the zero vector (zero-area
triangle); otherwise it scales by the reciprocal square root of the squared
magnitude. -/
def triangleAccepts (sq : ℚ → ℚ) (positions : List Vec3q) (vertex : Vec3q)
    (threshold : ℚ) (t : ℕ × ℕ × ℕ) : Bool :=
  let p0 := positions.getD t.1 ⟨0, 0, 0⟩
  let p1 := positions.getD t.2.1 ⟨0, 0, 0⟩
  let p2 := positions.getD t.2.2 ⟨0, 0, 0⟩
  let nraw := Vec3q.cross (p1 - p0) (p2 - p0)
  let m2 := Vec3q.dot nraw nraw
  let normal : Option Vec3q :=
    if m2 = 0 then none else some (Vec3q.smul (1 / sq m2) nraw)
  let dist : Option ℚ := normal.map fun n => |Vec3q.dot n (vertex - p0)|
  let center := Vec3q.smul (1 / 3) (p0 + p1 + p2)
  let q0 := p0 + Vec3q.smul (15 / 100) (p0 - center)
  let q1 := p1 + Vec3q.smul (15 / 100) (p1 - center)
  let q2 := p2 + Vec3q.smul (15 / 100) (p2 - center)
  let e0d : Option ℚ := normal.map fun n => Vec3q.dot (Vec3q.cross (q1 - q0) n) (vertex - q0)
  let e1d : Option ℚ := normal.map fun n => Vec3q.dot (Vec3q.cross (q2 - q1) n) (vertex - q1)
  let e2d : Option ℚ := normal.map fun n => Vec3q.dot (Vec3q.cross (q0 - q2) n) (vertex - q2)
  !ogt dist threshold && !ogt e0d EPSILON && !ogt e1d EPSILON && !ogt e2d EPSILON

/-- `vertex_overlapping` (`model.rs`): scan the other mesh's triangles; the
first accepting triangle returns true, exhausting them returns false. -/
def vertexOverlapping (sq : ℚ → ℚ) (vertex : Vec3q) (mc : MeshContainer)
    (threshold : ℚ) : Bool :=
  (chunks3 mc.mesh.indices).any (triangleAccepts sq mc.mesh.positions vertex threshold)

/-- `MeshContainer::calc_overlapping_vertice_idxs` (`model.rs`); `none`
models the `expect` panic when `mean_edge_len` is absent. -/
def calcOverlappingVerticeIdxs (sq : ℚ → ℚ) (self other : MeshContainer) :
    Option (List ℕ) :=
  match self.mean_edge_len with
  | none => none
  | some mel =>
    let threshold := 4 * mel
    some (match AABBq.intersection self.aabb other.aabb with
      | some inter =>
        (List.range self.mesh.positions.length).filter fun idx =>
          inter.isInside (self.mesh.positions.getD idx ⟨0, 0, 0⟩) &&
            vertexOverlapping sq (self.mesh.positions.getD idx ⟨0, 0, 0⟩) other threshold
      | none => [])

/-- One triangle step of the mark loop of
`MeshContainer::mark_vertices_to_delete`: a triangle whose corners are all
in the delete set, or none of them, contributes nothing; otherwise every
corner that is in the delete set is recorded to be kept. -/
def markStep (dset : List ℕ) (keep : List ℕ) (t : ℕ × ℕ × ℕ) : List ℕ :=
  let b0 := decide (t.1 ∈ dset)
  let b1 := decide (t.2.1 ∈ dset)
  let b2 := decide (t.2.2 ∈ dset)
  if (b0 && b1 && b2) || (!b0 && !b1 && !b2) then keep
  else
    keep ++ (if b0 then [t.1] else []) ++ (if b1 then [t.2.1] else []) ++
      (if b2 then [t.2.2] else [])

/-- `MeshContainer::mark_vertices_to_delete` (`model.rs`). -/
def MeshContainer.markVerticesToDelete (c : MeshContainer) : MeshContainer :=
  if c.overlapping_vertice_idxs.isEmpty then c
  else if c.overlapping_vertice_idxs.length = c.mesh.indices.length then
    { c with to_be_deleted := true }
  else
    let dset := c.overlapping_vertice_idxs
    let keep := (chunks3 c.mesh.indices).foldl (markStep dset) []
    { c with indices_to_delete := dset.filter fun i => !decide (i ∈ keep) }

/-- The position/UV/remap scan of `MeshContainer::do_delete_vertices`:
walk positions left to right carrying the running old index and the number
of survivors so far; deleted indices get `none` in the remap, survivors are
copied (with their UV when UVs are present) and remapped to their position
in the new buffer. -/
def deleteScan (dset : List ℕ) (uvs : Option (List Vec2q)) :
    List Vec3q → ℕ → ℕ → List Vec3q × List Vec2q × List (Option ℕ)
  | [], _, _ => ([], [], [])
  | p :: rest, oldIdx, newLen =>
    if oldIdx ∈ dset then
      let r := deleteScan dset uvs rest (oldIdx + 1) newLen
      (r.1, r.2.1, none :: r.2.2)
    else
      let r := deleteScan dset uvs rest (oldIdx + 1) (newLen + 1)
      (p :: r.1,
       (match uvs with
        | some u => u.getD oldIdx ⟨0, 0⟩ :: r.2.1
        | none => r.2.1),
       some newLen :: r.2.2)

/-- The triangle rebuild step of `do_delete_vertices`: remap all three
corners; drop the triangle when any corner was deleted or when two corners
collapse to the same new index. -/
def remapTri (remap : List (Option ℕ)) (t : ℕ × ℕ × ℕ) : Option (ℕ × ℕ × ℕ) :=
  match remap.getD t.1 none, remap.getD t.2.1 none, remap.getD t.2.2 none with
  | some i0, some i1, some i2 =>
    if i0 ≠ i1 ∧ i1 ≠ i2 ∧ i2 ≠ i0 then some (i0, i1, i2) else none
  | _, _, _ => none

/-- `MeshContainer::do_delete_vertices` (`model.rs`).  The
`extend_from_slice` of each surviving triple is the concatenation of the
surviving triples in order. -/
def MeshContainer.doDeleteVertices (c : MeshContainer) : MeshContainer :=
  let scan := deleteScan c.indices_to_delete c.mesh.uvs c.mesh.positions 0 0
  let newVertices := scan.1
  let newUvs := scan.2.1
  let remap := scan.2.2
  let newIndices :=
    ((chunks3 c.mesh.indices).filterMap (remapTri remap)).flatMap tripleList
  { c with
    mesh := { c.mesh with
      positions := newVertices
      indices := newIndices
      uvs := if newUvs.isEmpty then none else some newUvs
      normals := none
      tangents := none } }

/-- `MeshContainer::modified` (`model.rs`). -/
def MeshContainer.modified (c : MeshContainer) : Bool :=
  c.to_be_deleted || !c.overlapping_vertice_idxs.isEmpty

/-- Mean edge length as computed in `MeshContainer::new` when
`calc_edge_len` is set: each triangle contributes its three edge lengths;
`none` models the `0.0 / 0` NaN of a mesh without triangles.  `distance`
is the square root (`sq`) of the squared distance. -/
def meanEdgeLen (sq : ℚ → ℚ) (positions : List Vec3q) (indices : List ℕ) : Option ℚ :=
  let tris := chunks3 indices
  if tris.isEmpty then none
  else
    let lenSum := tris.foldl
      (fun acc t =>
        let p0 := positions.getD t.1 ⟨0, 0, 0⟩
        let p1 := positions.getD t.2.1 ⟨0, 0, 0⟩
        let p2 := positions.getD t.2.2 ⟨0, 0, 0⟩
        acc + sq (Vec3q.dot (p1 - p0) (p1 - p0)) + sq (Vec3q.dot (p2 - p1) (p2 - p1)) +
          sq (Vec3q.dot (p0 - p2) (p0 - p2)))
      0
    some (lenSum / (3 * tris.length))

/- ### model.rs : Model, and the stage-3 worker of world.rs -/

/-- `Model` (`model.rs`). -/
structure Model where
  meshes : List MeshContainer
  aabb : AABBq
  source_file : String

/-- `Model::modified`. -/
def Model.modified (m : Model) : Bool := m.meshes.any MeshContainer.modified

/-- `Model::mark_vertices_to_delete`: fan-out over the meshes. -/
def Model.markVerticesToDelete (m : Model) : Model :=
  { m with meshes := m.meshes.map MeshContainer.markVerticesToDelete }

/-- `Model::do_delete_vertices`: remove every mesh whose `to_be_deleted`
flag is set and run the delete phase on the rest, preserving order. -/
def Model.doDeleteVertices (m : Model) : Model :=
  { m with meshes := (m.meshes.filter fun c => !c.to_be_deleted).map MeshContainer.doDeleteVertices }

/-- `Model::to_be_deleted`: every mesh's flag (vacuously true for a model
without meshes). -/
def Model.toBeDeleted (m : Model) : Bool := m.meshes.all (·.to_be_deleted)

/-- `ModelReference` (`model.rs`); materials are opaque. -/
structure ModelReference where
  source_file : String
  materials : List Unit
  texture_downscale_factor : ℕ
deriving DecidableEq

/-- `ModelReference::from_model`. -/
def ModelReference.fromModel (m : Model) (factor : ℕ) : ModelReference :=
  ⟨m.source_file, m.meshes.map fun _ => (), factor⟩

/-- `OutAsset` (`model.rs`). -/
inductive OutAsset where
  | assetRef : ModelReference → OutAsset
  | asset : Model → OutAsset

/-- The per-model classification performed by
`mark_and_delete_vertices_worker` (`world.rs`): mark, then drop fully
covered models (`none`: nothing is pushed to the results), pass through
unmodified models with texture downscale factor 2, and otherwise carve and
emit the rewritten model. -/
def markAndDeleteClassify (m : Model) : Option OutAsset :=
  let m := m.markVerticesToDelete
  if m.toBeDeleted then none
  else if !m.modified then some (OutAsset.assetRef (ModelReference.fromModel m 2))
  else some (OutAsset.asset m.doDeleteVertices)

/- ### Concrete fixtures used by witnesses and counterexamples -/

/-- A triangle mesh whose three vertices were each reported overlapping by
three different HQ contributors: `overlapping_vertex_idxs = [0, 0, 0]` has
length 3, equal to the mesh's index count, although vertices 1 and 2 never
overlapped. -/
def c1ex : MeshContainer :=
  { mesh := ⟨[⟨0, 0, 0⟩, ⟨1, 0, 0⟩, ⟨0, 1, 0⟩], [0, 1, 2], none, none, none, none⟩
    aabb := ⟨⟨0, 0, 0⟩, ⟨1, 1, 0⟩⟩
    material := ()
    overlapping_vertice_idxs := [0, 0, 0]
    to_be_deleted := false
    mean_edge_len := none
    indices_to_delete := []
    index_grid := none }

/-- A triangle mesh with exactly one covered corner (vertex 0). -/
def c2ex : MeshContainer :=
  { mesh := ⟨[⟨0, 0, 0⟩, ⟨1, 0, 0⟩, ⟨0, 1, 0⟩], [0, 1, 2], none, none, none, none⟩
    aabb := ⟨⟨0, 0, 0⟩, ⟨1, 1, 0⟩⟩
    material := ()
    overlapping_vertice_idxs := [0]
    to_be_deleted := false
    mean_edge_len := none
    indices_to_delete := []
    index_grid := none }

/-- A two-triangle quad with vertex 3 marked for deletion. -/
def c3ex : MeshContainer :=
  { mesh := ⟨[⟨0, 0, 0⟩, ⟨1, 0, 0⟩, ⟨0, 1, 0⟩, ⟨1, 1, 0⟩], [0, 1, 2, 1, 3, 2],
      none, none, none, none⟩
    aabb := ⟨⟨0, 0, 0⟩, ⟨1, 1, 0⟩⟩
    material := ()
    overlapping_vertice_idxs := [3]
    to_be_deleted := false
    mean_edge_len := none
    indices_to_delete := [3]
    index_grid := none }

/-- HQ container holding the unit right triangle in the z = 0 plane (the
triangle of the repository's own `vertex_overlapping` unit tests). -/
def hqUnitTri : MeshContainer :=
  { mesh := ⟨[⟨0, 0, 0⟩, ⟨1, 0, 0⟩, ⟨0, 1, 0⟩], [0, 1, 2], none, none, none, none⟩
    aabb := ⟨⟨0, 0, 0⟩, ⟨1, 1, 0⟩⟩
    material := ()
    overlapping_vertice_idxs := []
    to_be_deleted := false
    mean_edge_len := none
    indices_to_delete := []
    index_grid := none }

/-- HQ container holding one zero-area (collinear) triangle. -/
def hqDegenTri : MeshContainer :=
  { mesh := ⟨[⟨0, 0, 0⟩, ⟨1, 0, 0⟩, ⟨2, 0, 0⟩], [0, 1, 2], none, none, none, none⟩
    aabb := ⟨⟨0, 0, 0⟩, ⟨2, 0, 0⟩⟩
    material := ()
    overlapping_vertice_idxs := []
    to_be_deleted := false
    mean_edge_len := none
    indices_to_delete := []
    index_grid := none }

/-- NQ container for the AABB-pruning counterexample: a 3-4-5 triangle at
height z = 1/2 (mean edge length exactly 4, hence threshold 16) plus the
probe vertex (1, 1, 5), which lies inside the NQ AABB but above the HQ
AABB. -/
def nqPruned : MeshContainer :=
  { mesh := ⟨[⟨0, 0, 1/2⟩, ⟨3, 0, 1/2⟩, ⟨3, 4, 1/2⟩, ⟨1, 1, 5⟩], [0, 1, 2],
      none, none, none, none⟩
    aabb := ⟨⟨0, 0, 1/2⟩, ⟨3, 4, 5⟩⟩
    material := ()
    overlapping_vertice_idxs := []
    to_be_deleted := false
    mean_edge_len := some 4
    indices_to_delete := []
    index_grid := none }

/-- HQ container for the AABB-pruning counterexample: one slanted triangle
with rational normal magnitude (cross product (0, -12, 16), magnitude 20). -/
def hqSlanted : MeshContainer :=
  { mesh := ⟨[⟨0, 0, 0⟩, ⟨4, 0, 0⟩, ⟨0, 4, 3⟩], [0, 1, 2], none, none, none, none⟩
    aabb := ⟨⟨0, 0, 0⟩, ⟨4, 4, 3⟩⟩
    material := ()
    overlapping_vertice_idxs := []
    to_be_deleted := false
    mean_edge_len := none
    indices_to_delete := []
    index_grid := none }

/-- An NQ container constructed without `calc_edge_len`, so
`mean_edge_len` is absent. -/
def nqNoEdgeLen : MeshContainer :=
  { mesh := ⟨[⟨0, 0, 0⟩, ⟨1, 0, 0⟩, ⟨0, 1, 0⟩], [0, 1, 2], none, none, none, none⟩
    aabb := ⟨⟨0, 0, 0⟩, ⟨1, 1, 0⟩⟩
    material := ()
    overlapping_vertice_idxs := []
    to_be_deleted := false
    mean_edge_len := none
    indices_to_delete := []
    index_grid := none }

/-- A `Model` whose mesh list is empty. -/
def emptyModel : Model := ⟨[], ⟨⟨0, 0, 0⟩, ⟨0, 0, 0⟩⟩, "empty.obj"⟩

/-- A container with no vertices but a present (empty) UV buffer, and
nothing marked for deletion; the TriMesh invariant "UV length equals
position length" holds vacuously. -/
def c10empty : MeshContainer :=
  { mesh := ⟨[], [], some [], none, none, none⟩
    aabb := ⟨⟨0, 0, 0⟩, ⟨0, 0, 0⟩⟩
    material := ()
    overlapping_vertice_idxs := []
    to_be_deleted := false
    mean_edge_len := none
    indices_to_delete := []
    index_grid := none }

/-- A one-vertex container with a UV and nothing marked for deletion. -/
def c10one : MeshContainer :=
  { mesh := ⟨[⟨1, 2, 3⟩], [], some [⟨1/2, 1/2⟩], none, none, none⟩
    aabb := ⟨⟨1, 2, 3⟩, ⟨1, 2, 3⟩⟩
    material := ()
    overlapping_vertice_idxs := []
    to_be_deleted := false
    mean_edge_len := none
    indices_to_delete := []
    index_grid := none }

/- ### Helper lemmas -/

/-- A comparison that is false stays false when the right-hand side grows;
in particular a NaN (`none`) left operand compares false against every
threshold. -/
theorem ogt_mono (d : Option ℚ) (t t' : ℚ) (hle : t ≤ t') (h : ogt d t = false) :
    ogt d t' = false := by
  cases d with
  | none => rfl
  | some a =>
    simp only [ogt, decide_eq_false_iff_not, not_lt] at h ⊢
    exact le_trans h hle

/- ### C8 -/

/-- C8: for every MeshContainer whose `mean_edge_len` is absent, calling
`calc_overlapping_vertice_idxs` against any other mesh aborts (the `expect`
panic, modelled as `none`) rather than returning a result. -/
theorem calcOverlap_requires_mean_edge_len (sq : ℚ → ℚ) (self other : MeshContainer)
    (h : self.mean_edge_len = none) :
    calcOverlappingVerticeIdxs sq self other = none := by
  unfold calcOverlappingVerticeIdxs
  rw [h]

/-- Witness for C8 at a concrete container lacking `mean_edge_len`. -/
theorem calcOverlap_requires_mean_edge_len_witness :
    nqNoEdgeLen.mean_edge_len = none ∧
      calcOverlappingVerticeIdxs sqT nqNoEdgeLen hqUnitTri = none :=
  ⟨rfl, calcOverlap_requires_mean_edge_len sqT nqNoEdgeLen hqUnitTri rfl⟩

/- ### C9 -/

/-- C9: a Model with no meshes has `to_be_deleted() = true` (vacuous `all`)
and the carving worker classifies it as Dropped: nothing is pushed to the
results. -/
theorem empty_model_classified_dropped (m : Model) (h : m.meshes = []) :
    m.toBeDeleted = true ∧ markAndDeleteClassify m = none := by
  constructor
  · simp [Model.toBeDeleted, h]
  · simp [markAndDeleteClassify, Model.markVerticesToDelete, Model.toBeDeleted, h]

/-- Witness for C9 at the concrete empty model. -/
theorem empty_model_classified_dropped_witness :
    emptyModel.toBeDeleted = true ∧ markAndDeleteClassify emptyModel = none :=
  empty_model_classified_dropped emptyModel rfl

/- ### C1 -/

/-- C1 is a code bug: the mark phase compares `len(overlapping_vertex_idxs)`
with the mesh's index count, so the container `c1ex` — in which only vertex 0
ever overlapped, three times — is flagged `to_be_deleted` although vertices 1
and 2 (both valid vertex indices) never appear in the overlap list. -/
theorem mark_whole_mesh_shortcut_miscounts :
    c1ex.markVerticesToDelete.to_be_deleted = true ∧
      c1ex.mesh.positions.length = 3 ∧
      (1 : ℕ) ∉ c1ex.overlapping_vertice_idxs ∧
      (2 : ℕ) ∉ c1ex.overlapping_vertice_idxs ∧
      c1ex.to_be_deleted = false := by
  decide

/- ### C6 -/

/-- C6: coverage is monotone in the threshold: the threshold enters the
per-triangle test only through the slab rejection `dist > threshold`, so a
triangle accepted at `t` is accepted at every `t' ≥ t`, for every square
root realization `sq`. -/
theorem point_covered_monotone_in_threshold (sq : ℚ → ℚ) (v : Vec3q)
    (mc : MeshContainer) (t t' : ℚ) (hle : t ≤ t')
    (hcov : vertexOverlapping sq v mc t = true) :
    vertexOverlapping sq v mc t' = true := by
  unfold vertexOverlapping at hcov ⊢
  rw [List.any_eq_true] at hcov ⊢
  obtain ⟨tri, htri, hacc⟩ := hcov
  refine ⟨tri, htri, ?_⟩
  simp only [triangleAccepts, Bool.and_eq_true, Bool.not_eq_true'] at hacc ⊢
  exact ⟨⟨⟨ogt_mono _ _ _ hle hacc.1.1.1, hacc.1.1.2⟩, hacc.1.2⟩, hacc.2⟩

/-- Witness for C6: the S1 configuration of the spec (unit triangle in the
z = 0 plane, query point (0,0,1)) is covered at threshold 1, hence also at
threshold 2. -/
theorem point_covered_monotone_in_threshold_witness :
    vertexOverlapping sqT ⟨0, 0, 1⟩ hqUnitTri 2 = true :=
  point_covered_monotone_in_threshold sqT ⟨0, 0, 1⟩ hqUnitTri 1 2 (by norm_num)
    (by norm_num [vertexOverlapping, hqUnitTri, chunks3, triangleAccepts, ogt, sqT,
      Vec3q.cross, Vec3q.dot, Vec3q.smul, Vec3q.add_def, Vec3q.sub_def, EPSILON,
      abs_of_nonneg, abs_of_nonpos])

/- ### C5 -/

/-- C5 (amended): a zero-area triangle does not get skipped — it accepts
every query point at every threshold.  Its cross product is the zero
vector, normalization yields NaN (`none`), and every rejection comparison
against NaN is false, so none of the `continue`s fires and the triangle
returns true. -/
theorem zero_area_triangle_accepts_all (sq : ℚ → ℚ) (v : Vec3q) (mc : MeshContainer)
    (threshold : ℚ) (t : ℕ × ℕ × ℕ) (ht : t ∈ chunks3 mc.mesh.indices)
    (hz : Vec3q.cross
        (mc.mesh.positions.getD t.2.1 ⟨0, 0, 0⟩ - mc.mesh.positions.getD t.1 ⟨0, 0, 0⟩)
        (mc.mesh.positions.getD t.2.2 ⟨0, 0, 0⟩ - mc.mesh.positions.getD t.1 ⟨0, 0, 0⟩)
      = ⟨0, 0, 0⟩) :
    vertexOverlapping sq v mc threshold = true := by
  unfold vertexOverlapping
  rw [List.any_eq_true]
  refine ⟨t, ht, ?_⟩
  simp only [triangleAccepts]
  rw [hz]
  norm_num [Vec3q.dot, ogt]

/-- Counterexample for C5 as stated: the degenerate HQ triangle makes
`point_covered` accept the far-away point (100, 100, 100) at threshold 1,
so zero-area triangles are *not* silently skipped. -/
theorem zero_area_triangle_covers_distant_point :
    vertexOverlapping sqT ⟨100, 100, 100⟩ hqDegenTri 1 = true := by
  norm_num [vertexOverlapping, hqDegenTri, chunks3, triangleAccepts, ogt,
    Vec3q.cross, Vec3q.dot, Vec3q.smul, Vec3q.add_def, Vec3q.sub_def]

/-- Witness for the amended C5 at a different concrete point and
threshold. -/
theorem zero_area_triangle_accepts_all_witness :
    vertexOverlapping sqT ⟨-7, 3, 42⟩ hqDegenTri (1 / 10) = true :=
  zero_area_triangle_accepts_all sqT ⟨-7, 3, 42⟩ hqDegenTri (1 / 10) (0, 1, 2)
    (by decide)
    (by norm_num [hqDegenTri, Vec3q.cross, Vec3q.sub_def])

/- ### C2 -/

/-- The mark loop only ever appends to the keep set. -/
theorem markStep_subset (dset K : List ℕ) (t : ℕ × ℕ × ℕ) : K ⊆ markStep dset K t := by
  intro a ha
  simp only [markStep]
  split
  · exact ha
  · simp only [List.append_assoc, List.mem_append]
    exact Or.inl ha

/-- Keep-set membership is preserved across the whole triangle fold. -/
theorem foldl_markStep_subset (dset : List ℕ) (l : List (ℕ × ℕ × ℕ)) (K : List ℕ) :
    K ⊆ l.foldl (markStep dset) K := by
  induction l generalizing K with
  | nil => exact fun a h => h
  | cons s l ih => exact fun a h => ih (markStep dset K s) (markStep_subset dset K s h)

/-- A mixed triangle (one corner `v` in the delete set, one corner `u` not
in it) records `v` in the keep set. -/
theorem markStep_mem (dset K : List ℕ) (t : ℕ × ℕ × ℕ) (v u : ℕ)
    (hv : v = t.1 ∨ v = t.2.1 ∨ v = t.2.2) (hvD : v ∈ dset)
    (hu : u = t.1 ∨ u = t.2.1 ∨ u = t.2.2) (huD : u ∉ dset) :
    v ∈ markStep dset K t := by
  by_cases h0 : t.1 ∈ dset <;> by_cases h1 : t.2.1 ∈ dset <;> by_cases h2 : t.2.2 ∈ dset <;>
    simp [markStep, h0, h1, h2] <;>
    rcases hv with rfl | rfl | rfl <;> rcases hu with rfl | rfl | rfl <;>
    simp_all

/-- A mixed triangle anywhere in the list records its covered corners in
the final keep set. -/
theorem foldl_markStep_mem (dset : List ℕ) (l : List (ℕ × ℕ × ℕ)) (K : List ℕ)
    (t : ℕ × ℕ × ℕ) (ht : t ∈ l) (v u : ℕ)
    (hv : v = t.1 ∨ v = t.2.1 ∨ v = t.2.2) (hvD : v ∈ dset)
    (hu : u = t.1 ∨ u = t.2.1 ∨ u = t.2.2) (huD : u ∉ dset) :
    v ∈ l.foldl (markStep dset) K := by
  induction l generalizing K with
  | nil => cases ht
  | cons s l ih =>
    rw [List.foldl_cons]
    rcases List.mem_cons.mp ht with rfl | ht'
    · exact foldl_markStep_subset dset l (markStep dset K t)
        (markStep_mem dset K t v u hv hvD hu huD)
    · exact ih (markStep dset K s) ht'

/-- C2: when the mark phase runs without the whole-mesh shortcut, every
vertex of a triangle that has at least one corner outside
`overlapping_vertex_idxs` is absent from `indices_to_delete` afterwards. -/
theorem mark_preserves_boundary_vertices (c : MeshContainer)
    (hinit : c.indices_to_delete = [])
    (hns : ¬(c.overlapping_vertice_idxs ≠ [] ∧
      c.overlapping_vertice_idxs.length = c.mesh.indices.length))
    (t : ℕ × ℕ × ℕ) (ht : t ∈ chunks3 c.mesh.indices)
    (u : ℕ) (hu : u = t.1 ∨ u = t.2.1 ∨ u = t.2.2)
    (huD : u ∉ c.overlapping_vertice_idxs)
    (v : ℕ) (hv : v = t.1 ∨ v = t.2.1 ∨ v = t.2.2) :
    v ∉ c.markVerticesToDelete.indices_to_delete := by
  unfold MeshContainer.markVerticesToDelete
  by_cases hemp : c.overlapping_vertice_idxs.isEmpty
  · simp only [hemp, if_true]
    rw [hinit]
    exact List.not_mem_nil v
  · have hne : c.overlapping_vertice_idxs ≠ [] := by
      simpa [List.isEmpty_iff] using hemp
    have hlen : ¬ c.overlapping_vertice_idxs.length = c.mesh.indices.length :=
      fun he => hns ⟨hne, he⟩
    simp only [hemp, Bool.false_eq_true, if_false, hlen, ite_false]
    intro hmem
    rw [List.mem_filter] at hmem
    obtain ⟨hvD, hkeep⟩ := hmem
    rw [Bool.not_eq_true', decide_eq_false_iff_not] at hkeep
    exact hkeep (foldl_markStep_mem c.overlapping_vertice_idxs
      (chunks3 c.mesh.indices) [] t ht v u hv hvD hu huD)

/-- Witness for C2: in `c2ex` only corner 0 of the single triangle is
covered; corner 1 is uncovered, so vertex 0 is retained. -/
theorem mark_preserves_boundary_vertices_witness :
    (0 : ℕ) ∉ c2ex.markVerticesToDelete.indices_to_delete :=
  mark_preserves_boundary_vertices c2ex rfl (by decide) (0, 1, 2) (by decide)
    1 (by decide) (by decide) 0 (by decide)

/- ### C3 -/

/-- Every remap entry produced by the position scan points strictly below
the end of the new position buffer. -/
theorem deleteScan_remap_bound (dset : List ℕ) (uvs : Option (List Vec2q)) :
    ∀ (l : List Vec3q) (i n : ℕ), ∀ o ∈ (deleteScan dset uvs l i n).2.2,
      ∀ k, o = some k → k < n + (deleteScan dset uvs l i n).1.length := by
  intro l
  induction l with
  | nil =>
    intro i n o ho
    simp [deleteScan] at ho
  | cons p rest ih =>
    intro i n o ho k hk
    by_cases hd : i ∈ dset
    · rw [deleteScan] at ho ⊢
      simp only [hd, if_true, List.mem_cons] at ho ⊢
      rcases ho with rfl | ho
      · cases hk
      · exact ih (i + 1) n o ho k hk
    · rw [deleteScan] at ho ⊢
      simp only [hd, if_false, List.mem_cons, List.length_cons] at ho ⊢
      rcases ho with rfl | ho
      · obtain rfl : n = k := by injection hk
        omega
      · have := ih (i + 1) (n + 1) o ho k hk
        omega

/-- Flattening triples and re-chunking is the identity. -/
theorem chunks3_flatMap_tripleList (l : List (ℕ × ℕ × ℕ)) :
    chunks3 (l.flatMap tripleList) = l := by
  induction l with
  | nil => rfl
  | cons t l ih =>
    rw [List.flatMap_cons, tripleList]
    show chunks3 (t.1 :: t.2.1 :: t.2.2 :: l.flatMap tripleList) = t :: l
    simp only [chunks3]
    rw [ih]

/-- A successful `getD` lookup (against default `none`) exhibits a list
member. -/
theorem getD_some_mem (l : List (Option ℕ)) (j k : ℕ) (h : l.getD j none = some k) :
    some k ∈ l := by
  rcases Nat.lt_or_ge j l.length with hj | hj
  · rw [List.getD_eq_getElem l none hj] at h
    rw [← h]
    exact List.getElem_mem hj
  · rw [List.getD_eq_default l none hj] at h
    cases h

/-- C3: after `do_delete_vertices` on a well-formed mesh, every triangle of
the rebuilt index buffer has all three corners strictly below the new
position count and no two corners equal. -/
theorem carve_index_integrity (c : MeshContainer)
    (hidx : ∀ i ∈ c.mesh.indices, i < c.mesh.positions.length)
    (huv : c.mesh.uvs = none ∨
      ∃ u, c.mesh.uvs = some u ∧ u.length = c.mesh.positions.length)
    (t : ℕ × ℕ × ℕ) (ht : t ∈ chunks3 c.doDeleteVertices.mesh.indices) :
    (t.1 < c.doDeleteVertices.mesh.positions.length ∧
     t.2.1 < c.doDeleteVertices.mesh.positions.length ∧
     t.2.2 < c.doDeleteVertices.mesh.positions.length) ∧
    (t.1 ≠ t.2.1 ∧ t.2.1 ≠ t.2.2 ∧ t.2.2 ≠ t.1) := by
  unfold MeshContainer.doDeleteVertices at ht ⊢
  rw [chunks3_flatMap_tripleList] at ht
  rw [List.mem_filterMap] at ht
  obtain ⟨t0, ht0, hmap⟩ := ht
  unfold remapTri at hmap
  set remap := (deleteScan c.indices_to_delete c.mesh.uvs c.mesh.positions 0 0).2.2 with hremap
  cases h0 : remap.getD t0.1 none with
  | none => rw [h0] at hmap; cases hmap
  | some i0 =>
  cases h1 : remap.getD t0.2.1 none with
  | none => rw [h0, h1] at hmap; cases hmap
  | some i1 =>
  cases h2 : remap.getD t0.2.2 none with
  | none => rw [h0, h1, h2] at hmap; cases hmap
  | some i2 =>
  rw [h0, h1, h2] at hmap
  dsimp only at hmap
  by_cases hne : i0 ≠ i1 ∧ i1 ≠ i2 ∧ i2 ≠ i0
  · rw [if_pos hne] at hmap
    obtain rfl : (i0, i1, i2) = t := by injection hmap
    have b0 := deleteScan_remap_bound c.indices_to_delete c.mesh.uvs c.mesh.positions 0 0
      _ (getD_some_mem _ _ _ h0) i0 rfl
    have b1 := deleteScan_remap_bound c.indices_to_delete c.mesh.uvs c.mesh.positions 0 0
      _ (getD_some_mem _ _ _ h1) i1 rfl
    have b2 := deleteScan_remap_bound c.indices_to_delete c.mesh.uvs c.mesh.positions 0 0
      _ (getD_some_mem _ _ _ h2) i2 rfl
    dsimp only
    exact ⟨⟨by simpa using b0, by simpa using b1, by simpa using b2⟩, hne⟩
  · rw [if_neg hne] at hmap
    cases hmap

/-- Witness for C3 on the quad `c3ex` with vertex 3 deleted: the surviving
triangle is (0, 1, 2). -/
theorem carve_index_integrity_witness :
    ((0 : ℕ) < c3ex.doDeleteVertices.mesh.positions.length ∧
     (1 : ℕ) < c3ex.doDeleteVertices.mesh.positions.length ∧
     (2 : ℕ) < c3ex.doDeleteVertices.mesh.positions.length) ∧
    ((0 : ℕ) ≠ 1 ∧ (1 : ℕ) ≠ 2 ∧ (2 : ℕ) ≠ 0) :=
  carve_index_integrity c3ex (by decide) (Or.inl rfl) (0, 1, 2) (by decide)

/- ### C10 -/

/-- With nothing marked for deletion the position scan copies every
position. -/
theorem deleteScan_empty_positions (uvs : Option (List Vec2q)) :
    ∀ (l : List Vec3q) (i n : ℕ), (deleteScan [] uvs l i n).1 = l := by
  intro l
  induction l with
  | nil => intro i n; rfl
  | cons p rest ih =>
    intro i n
    rw [deleteScan]
    simp [ih]

/-- With nothing marked for deletion the UV scan copies the UV buffer entry
by entry, starting at offset `i`. -/
theorem deleteScan_empty_uvs (u : List Vec2q) :
    ∀ (l : List Vec3q) (i n : ℕ),
      (deleteScan [] (some u) l i n).2.1 =
        (List.range l.length).map fun k => u.getD (i + k) ⟨0, 0⟩ := by
  intro l
  induction l with
  | nil => intro i n; rfl
  | cons p rest ih =>
    intro i n
    rw [deleteScan]
    simp only [List.not_mem_nil, if_false, List.length_cons, ite_false]
    rw [List.range_succ_eq_map]
    simp only [List.map_cons, List.map_map]
    rw [ih]
    refine congrArg₂ _ (by rw [Nat.add_zero]) (List.map_congr_left fun k _ => ?_)
    simp only [Function.comp_apply]
    rw [show i + 1 + k = i + k.succ from by omega]

/-- With nothing marked for deletion and no UV buffer the UV scan stays
empty. -/
theorem deleteScan_empty_uvs_none :
    ∀ (l : List Vec3q) (i n : ℕ), (deleteScan [] none l i n).2.1 = [] := by
  intro l
  induction l with
  | nil => intro i n; rfl
  | cons p rest ih =>
    intro i n
    rw [deleteScan]
    simp [ih]

/-- Reading a list back entry by entry reproduces it. -/
theorem getD_range_map (u : List Vec2q) :
    ((List.range u.length).map fun k => u.getD k ⟨0, 0⟩) = u := by
  induction u with
  | nil => rfl
  | cons a tl ih =>
    rw [List.length_cons, List.range_succ_eq_map]
    simp only [List.map_cons, List.getD_cons_zero, List.map_map]
    rw [show ((fun k => (a :: tl).getD k ⟨0, 0⟩) ∘ Nat.succ) = fun k => tl.getD k ⟨0, 0⟩ from rfl]
    rw [ih]

/-- C10 (amended): on a container with an empty `indices_to_delete`, an
aligned UV buffer and at least one vertex, `do_delete_vertices` leaves
positions, UVs, colors and all container-level state unchanged; only the
index buffer, normals and tangents may change.  (A present-but-empty UV
buffer — possible only when there are no vertices — is instead set to
absent, see the counterexample.) -/
theorem carve_unmarked_frame_effect (c : MeshContainer)
    (hdel : c.indices_to_delete = [])
    (huv : ∀ u, c.mesh.uvs = some u → u.length = c.mesh.positions.length)
    (hne : c.mesh.uvs = none ∨ c.mesh.positions ≠ []) :
    c.doDeleteVertices.mesh.positions = c.mesh.positions ∧
    c.doDeleteVertices.mesh.uvs = c.mesh.uvs ∧
    c.doDeleteVertices.mesh.colors = c.mesh.colors ∧
    c.doDeleteVertices.aabb = c.aabb ∧
    c.doDeleteVertices.overlapping_vertice_idxs = c.overlapping_vertice_idxs ∧
    c.doDeleteVertices.to_be_deleted = c.to_be_deleted ∧
    c.doDeleteVertices.mean_edge_len = c.mean_edge_len := by
  unfold MeshContainer.doDeleteVertices
  rw [hdel]
  dsimp only
  refine ⟨deleteScan_empty_positions c.mesh.uvs c.mesh.positions 0 0, ?_, rfl, rfl, rfl, rfl, rfl⟩
  cases hu : c.mesh.uvs with
  | none =>
    rw [deleteScan_empty_uvs_none c.mesh.positions 0 0]
    rfl
  | some u =>
    rw [deleteScan_empty_uvs u c.mesh.positions 0 0]
    have hlen : u.length = c.mesh.positions.length := huv u hu
    rw [← hlen]
    simp only [Nat.zero_add]
    rw [getD_range_map u]
    have hunil : u ≠ [] := by
      rcases hne with hne | hne
      · rw [hu] at hne; cases hne
      · intro hcon
        apply hne
        rw [← List.length_eq_zero]
        rw [← hlen, hcon]
        rfl
    rw [if_neg (by simpa [List.isEmpty_iff] using hunil)]

/-- Counterexample for C10 as stated: on the container `c10empty` (no
vertices, present empty UV buffer, nothing marked for deletion) the delete
phase sets the UV buffer to absent, so the UV sequence does not survive
unchanged. -/
theorem carve_drops_empty_uv_buffer :
    c10empty.indices_to_delete = [] ∧ c10empty.mesh.uvs = some [] ∧
      c10empty.doDeleteVertices.mesh.uvs = none :=
  ⟨rfl, rfl, rfl⟩

/-- Witness for the amended C10 on the one-vertex container `c10one`. -/
theorem carve_unmarked_frame_effect_witness :
    c10one.doDeleteVertices.mesh.positions = c10one.mesh.positions ∧
    c10one.doDeleteVertices.mesh.uvs = c10one.mesh.uvs ∧
    c10one.doDeleteVertices.mesh.colors = c10one.mesh.colors ∧
    c10one.doDeleteVertices.aabb = c10one.aabb ∧
    c10one.doDeleteVertices.overlapping_vertice_idxs = c10one.overlapping_vertice_idxs ∧
    c10one.doDeleteVertices.to_be_deleted = c10one.to_be_deleted ∧
    c10one.doDeleteVertices.mean_edge_len = c10one.mean_edge_len :=
  carve_unmarked_frame_effect c10one rfl
    (fun u hu => by cases hu; rfl)
    (Or.inr (by simp [c10one]))

/- ### C4 -/

/-- C4 (amended): `calc_overlapping_vertice_idxs` returns exactly the
indices of vertices that are both inside the AABB intersection and accepted
by `point_covered` at threshold `4 · mean_edge_len`.  The AABB containment
check is therefore an unconditional filter: it can exclude vertices for
which `point_covered` alone would return true (see the counterexample). -/
theorem calcOverlap_membership_characterization (sq : ℚ → ℚ)
    (self other : MeshContainer) (mel : ℚ) (hm : self.mean_edge_len = some mel)
    (inter : AABBq) (hi : AABBq.intersection self.aabb other.aabb = some inter)
    (i : ℕ) :
    i ∈ (calcOverlappingVerticeIdxs sq self other).getD [] ↔
      i < self.mesh.positions.length ∧
      inter.isInside (self.mesh.positions.getD i ⟨0, 0, 0⟩) = true ∧
      vertexOverlapping sq (self.mesh.positions.getD i ⟨0, 0, 0⟩) other (4 * mel) = true := by
  unfold calcOverlappingVerticeIdxs
  rw [hm]
  dsimp only
  rw [hi]
  simp only [Option.getD_some, List.mem_filter, List.mem_range, Bool.and_eq_true, and_assoc]

/-- Witness for the amended C4: vertex 0 of `nqPruned` lies inside the AABB
intersection and is covered by the slanted HQ triangle, so `calc_overlap`
reports it. -/
theorem calcOverlap_membership_characterization_witness :
    (0 : ℕ) ∈ (calcOverlappingVerticeIdxs sqT nqPruned hqSlanted).getD [] :=
  (calcOverlap_membership_characterization sqT nqPruned hqSlanted 4 rfl
      ⟨⟨0, 0, 1/2⟩, ⟨3, 4, 3⟩⟩
      (by norm_num [AABBq.intersection, nqPruned, hqSlanted, max_def, min_def]) 0).mpr
    ⟨by norm_num [nqPruned],
     by norm_num [AABBq.isInside, nqPruned],
     by norm_num [vertexOverlapping, hqSlanted, nqPruned, chunks3, triangleAccepts, ogt, sqT,
       Vec3q.cross, Vec3q.dot, Vec3q.smul, Vec3q.add_def, Vec3q.sub_def, EPSILON,
       abs_of_nonneg, abs_of_nonpos]⟩

/-- Counterexample for C4 as stated: vertex 3 of `nqPruned` (the point
(1, 1, 5)) is excluded from the overlap list solely by the AABB containment
check — it fails `is_inside` on the intersection box — even though
`point_covered` accepts it at the mesh's threshold `4 · mean_edge_len = 16`.
The prune does mask a true positive. -/
theorem aabb_prune_masks_covered_vertex :
    nqPruned.mean_edge_len = some 4 ∧
    meanEdgeLen sqT nqPruned.mesh.positions nqPruned.mesh.indices = some 4 ∧
    AABBq.intersection nqPruned.aabb hqSlanted.aabb = some ⟨⟨0, 0, 1/2⟩, ⟨3, 4, 3⟩⟩ ∧
    nqPruned.mesh.positions.getD 3 ⟨0, 0, 0⟩ = ⟨1, 1, 5⟩ ∧
    AABBq.isInside ⟨⟨0, 0, 1/2⟩, ⟨3, 4, 3⟩⟩ ⟨1, 1, 5⟩ = false ∧
    (3 : ℕ) ∉ (calcOverlappingVerticeIdxs sqT nqPruned hqSlanted).getD [] ∧
    vertexOverlapping sqT ⟨1, 1, 5⟩ hqSlanted (4 * 4) = true := by
  refine ⟨rfl, ?_, ?_, by norm_num [nqPruned], ?_, ?_, ?_⟩
  · norm_num [meanEdgeLen, nqPruned, chunks3, sqT, Vec3q.dot, Vec3q.sub_def]
  · norm_num [AABBq.intersection, nqPruned, hqSlanted, max_def, min_def]
  · norm_num [AABBq.isInside]
  · norm_num [calcOverlappingVerticeIdxs, nqPruned, hqSlanted, AABBq.intersection,
      AABBq.isInside, max_def, min_def, vertexOverlapping, chunks3, triangleAccepts, ogt, sqT,
      Vec3q.cross, Vec3q.dot, Vec3q.smul, Vec3q.add_def, Vec3q.sub_def, EPSILON,
      List.mem_filter, abs_of_nonneg, abs_of_nonpos]
  · norm_num [vertexOverlapping, hqSlanted, chunks3, triangleAccepts, ogt, sqT,
      Vec3q.cross, Vec3q.dot, Vec3q.smul, Vec3q.add_def, Vec3q.sub_def, EPSILON,
      abs_of_nonneg, abs_of_nonpos]

/- ### C7 -/

/-- Truncation toward zero is monotone, like the float-to-int cast it
models. -/
theorem truncQ_mono (a b : ℚ) (h : a ≤ b) : truncQ a ≤ truncQ b := by
  unfold truncQ
  by_cases ha : a < 0 <;> by_cases hb : b < 0 <;> simp only [ha, hb, if_true, if_false, ite_true, ite_false]
  · exact Int.ceil_le_ceil h
  · exact le_trans (Int.ceil_le.mpr (by exact_mod_cast ha.le))
      (Int.floor_nonneg.mpr (not_lt.mp hb))
  · exact absurd (lt_of_le_of_lt h hb) ha
  · exact Int.floor_le_floor h

/-- The slice just appended to a cell is contained in it. -/
theorem extendCell_mem (g : IndexGrid) (p : ℤ × ℤ × ℤ) (tri : List ℕ) (a : ℕ)
    (ha : a ∈ tri) : a ∈ g.extendCell p tri p := by
  unfold IndexGrid.extendCell
  simp [ha]

/-- Extending any cell preserves all existing cell contents. -/
theorem extendCell_pres (g : IndexGrid) (p q : ℤ × ℤ × ℤ) (tri : List ℕ) (a : ℕ)
    (h : a ∈ g q) : a ∈ g.extendCell p tri q := by
  unfold IndexGrid.extendCell
  by_cases hq : q = p
  · subst hq
    simp [List.mem_append, h]
  · simp only [if_neg hq]
    exact h

/-- Inserting a triangle preserves all existing cell contents. -/
theorem insertTriangle_pres (g : IndexGrid) (positions : List Vec3q) (t : ℕ × ℕ × ℕ)
    (q : ℤ × ℤ × ℤ) (a : ℕ) (h : a ∈ g q) : a ∈ g.insertTriangle positions t q := by
  unfold IndexGrid.insertTriangle
  split
  · split
    · exact extendCell_pres _ _ _ _ _ (extendCell_pres _ _ _ _ _ (extendCell_pres _ _ _ _ _ h))
    · exact extendCell_pres _ _ _ _ _ (extendCell_pres _ _ _ _ _ h)
  · split
    · exact extendCell_pres _ _ _ _ _ (extendCell_pres _ _ _ _ _ h)
    · exact extendCell_pres _ _ _ _ _ h

/-- Inserting a triangle places all three of its corner indices in the cell
of each of its corner vertices (also when corner cells coincide, since the
source then skips the duplicate insert but the shared cell already holds
the triple). -/
theorem insertTriangle_mem (g : IndexGrid) (positions : List Vec3q) (t : ℕ × ℕ × ℕ)
    (j : ℕ) (hj : j = t.1 ∨ j = t.2.1 ∨ j = t.2.2) (a : ℕ) (ha : a ∈ tripleList t) :
    a ∈ g.insertTriangle positions t (gridCoord (positions.getD j ⟨0, 0, 0⟩)) := by
  unfold IndexGrid.insertTriangle
  set c0 := gridCoord (positions.getD t.1 ⟨0, 0, 0⟩) with hc0
  set c1 := gridCoord (positions.getD t.2.1 ⟨0, 0, 0⟩) with hc1
  set c2 := gridCoord (positions.getD t.2.2 ⟨0, 0, 0⟩) with hc2
  have base : a ∈ g.extendCell c0 (tripleList t) c0 := extendCell_mem g c0 (tripleList t) a ha
  rcases hj with rfl | rfl | rfl
  · -- target cell is c0
    split
    · split
      · exact extendCell_pres _ _ _ _ _ (extendCell_pres _ _ _ _ _ base)
      · exact extendCell_pres _ _ _ _ _ base
    · split
      · exact extendCell_pres _ _ _ _ _ base
      · exact base
  · -- target cell is c1
    rw [← hc1]
    split
    · split
      · exact extendCell_pres _ _ _ _ _ (extendCell_mem _ _ _ _ ha)
      · rename_i h1
        rw [not_not] at h1
        rw [h1]
        exact extendCell_pres _ _ _ _ _ base
    · split
      · exact extendCell_mem _ _ _ _ ha
      · rename_i h1
        rw [not_not] at h1
        rw [h1]
        exact base
  · -- target cell is c2
    rw [← hc2]
    split
    · split
      · exact extendCell_mem _ _ _ _ ha
      · exact extendCell_mem _ _ _ _ ha
    · rename_i h2
      rw [not_and_or, not_not, not_not] at h2
      split
      · rename_i h1
        rcases h2 with h2 | h2
        · rw [h2]
          exact extendCell_mem _ _ _ _ ha
        · rw [h2]
          exact extendCell_pres _ _ _ _ _ base
      · rename_i h1
        rw [not_not] at h1
        rcases h2 with h2 | h2
        · rw [h2, h1]
          exact base
        · rw [h2]
          exact base

/-- Folding triangle inserts preserves all existing cell contents. -/
theorem foldl_insert_pres (positions : List Vec3q) (l : List (ℕ × ℕ × ℕ))
    (g : IndexGrid) (q : ℤ × ℤ × ℤ) (a : ℕ) (h : a ∈ g q) :
    a ∈ (l.foldl (fun g t => g.insertTriangle positions t) g) q := by
  induction l generalizing g with
  | nil => exact h
  | cons s l ih =>
    rw [List.foldl_cons]
    exact ih (g.insertTriangle positions s) (insertTriangle_pres g positions s q a h)

/-- After populating, every triangle's corner indices are present in the
cell of each of its corner vertices. -/
theorem populate_mem (positions : List Vec3q) (indices : List ℕ) (t : ℕ × ℕ × ℕ)
    (ht : t ∈ chunks3 indices) (j : ℕ) (hj : j = t.1 ∨ j = t.2.1 ∨ j = t.2.2)
    (a : ℕ) (ha : a ∈ tripleList t) :
    a ∈ IndexGrid.populateFromTriMesh positions indices
      (gridCoord (positions.getD j ⟨0, 0, 0⟩)) := by
  unfold IndexGrid.populateFromTriMesh
  have main : ∀ (l : List (ℕ × ℕ × ℕ)) (g : IndexGrid), t ∈ l →
      a ∈ (l.foldl (fun g t => g.insertTriangle positions t) g)
        (gridCoord (positions.getD j ⟨0, 0, 0⟩)) := by
    intro l
    induction l with
    | nil => intro g h; cases h
    | cons s l ih =>
      intro g h
      rw [List.foldl_cons]
      rcases List.mem_cons.mp h with rfl | h'
      · exact foldl_insert_pres positions l (g.insertTriangle positions t) _ a
          (insertTriangle_mem g positions t j hj a ha)
      · exact ih (g.insertTriangle positions s) h'
  exact main (chunks3 indices) IndexGrid.new ht

/-- Inclusive integer ranges contain every value between their bounds. -/
theorem intRange_mem (a b k : ℤ) (h1 : a ≤ k) (h2 : k ≤ b) : k ∈ intRange a b := by
  unfold intRange
  have hmem : (k - a).toNat ∈ List.range (b + 1 - a).toNat := List.mem_range.mpr (by omega)
  have hmap := List.mem_map_of_mem (fun n : ℕ => a + (n : ℤ)) hmem
  have heq : (fun n : ℕ => a + (n : ℤ)) (k - a).toNat = k := by
    show a + (((k - a).toNat : ℕ) : ℤ) = k
    omega
  rw [heq] at hmap
  exact hmap

/-- C7: the grid query result contains all three corner indices of every
triangle at least one of whose vertices lies in the axis-aligned box
`[point − threshold, point + threshold]` (componentwise).  The cast to cell
coordinates is monotone, so the vertex's cell lies inside the inclusive
cell box enumerated by the query. -/
theorem grid_query_contains_box_vertices (positions : List Vec3q) (indices : List ℕ)
    (p : Vec3q) (threshold : ℚ) (hth : 0 ≤ threshold)
    (t : ℕ × ℕ × ℕ) (ht : t ∈ chunks3 indices)
    (j : ℕ) (hj : j = t.1 ∨ j = t.2.1 ∨ j = t.2.2)
    (hx1 : p.x - threshold ≤ (positions.getD j ⟨0, 0, 0⟩).x)
    (hx2 : (positions.getD j ⟨0, 0, 0⟩).x ≤ p.x + threshold)
    (hy1 : p.y - threshold ≤ (positions.getD j ⟨0, 0, 0⟩).y)
    (hy2 : (positions.getD j ⟨0, 0, 0⟩).y ≤ p.y + threshold)
    (hz1 : p.z - threshold ≤ (positions.getD j ⟨0, 0, 0⟩).z)
    (hz2 : (positions.getD j ⟨0, 0, 0⟩).z ≤ p.z + threshold)
    (a : ℕ) (ha : a = t.1 ∨ a = t.2.1 ∨ a = t.2.2) :
    a ∈ (IndexGrid.populateFromTriMesh positions indices).getIndices p threshold := by
  have hcell : a ∈ IndexGrid.populateFromTriMesh positions indices
      (gridCoord (positions.getD j ⟨0, 0, 0⟩)) := by
    refine populate_mem positions indices t ht j hj a ?_
    unfold tripleList
    rcases ha with rfl | rfl | rfl <;> simp
  unfold IndexGrid.getIndices
  set w := positions.getD j ⟨0, 0, 0⟩ with hw
  have mono10 : ∀ u v : ℚ, u ≤ v → truncQ (u * GRID_RESOLUTION) ≤ truncQ (v * GRID_RESOLUTION) := by
    intro u v huv
    refine truncQ_mono _ _ ?_
    have : (0 : ℚ) ≤ GRID_RESOLUTION := by norm_num [GRID_RESOLUTION]
    exact mul_le_mul_of_nonneg_right huv this
  refine List.mem_flatMap.mpr ⟨(gridCoord w).1, ?_, ?_⟩
  · exact intRange_mem _ _ _
      (mono10 _ _ (by rw [Vec3q.sub_def]; exact hx1))
      (mono10 _ _ (by rw [Vec3q.add_def]; exact hx2))
  refine List.mem_flatMap.mpr ⟨(gridCoord w).2.1, ?_, ?_⟩
  · exact intRange_mem _ _ _
      (mono10 _ _ (by rw [Vec3q.sub_def]; exact hy1))
      (mono10 _ _ (by rw [Vec3q.add_def]; exact hy2))
  refine List.mem_flatMap.mpr ⟨(gridCoord w).2.2, ?_, ?_⟩
  · exact intRange_mem _ _ _
      (mono10 _ _ (by rw [Vec3q.sub_def]; exact hz1))
      (mono10 _ _ (by rw [Vec3q.add_def]; exact hz2))
  exact hcell

/-- Witness for C7: a unit triangle indexed into the grid; the query at the
origin with threshold 1/2 contains all three of its corner indices. -/
theorem grid_query_contains_box_vertices_witness :
    (0 : ℕ) ∈ (IndexGrid.populateFromTriMesh
        [⟨0, 0, 0⟩, ⟨1, 0, 0⟩, ⟨0, 1, 0⟩] [0, 1, 2]).getIndices ⟨0, 0, 0⟩ (1/2) ∧
    (1 : ℕ) ∈ (IndexGrid.populateFromTriMesh
        [⟨0, 0, 0⟩, ⟨1, 0, 0⟩, ⟨0, 1, 0⟩] [0, 1, 2]).getIndices ⟨0, 0, 0⟩ (1/2) ∧
    (2 : ℕ) ∈ (IndexGrid.populateFromTriMesh
        [⟨0, 0, 0⟩, ⟨1, 0, 0⟩, ⟨0, 1, 0⟩] [0, 1, 2]).getIndices ⟨0, 0, 0⟩ (1/2) :=
  ⟨grid_query_contains_box_vertices [⟨0, 0, 0⟩, ⟨1, 0, 0⟩, ⟨0, 1, 0⟩] [0, 1, 2]
      ⟨0, 0, 0⟩ (1/2) (by norm_num) (0, 1, 2) (by decide) 0 (by decide)
      (by norm_num) (by norm_num) (by norm_num) (by norm_num) (by norm_num) (by norm_num)
      0 (by decide),
   grid_query_contains_box_vertices [⟨0, 0, 0⟩, ⟨1, 0, 0⟩, ⟨0, 1, 0⟩] [0, 1, 2]
      ⟨0, 0, 0⟩ (1/2) (by norm_num) (0, 1, 2) (by decide) 0 (by decide)
      (by norm_num) (by norm_num) (by norm_num) (by norm_num) (by norm_num) (by norm_num)
      1 (by decide),
   grid_query_contains_box_vertices [⟨0, 0, 0⟩, ⟨1, 0, 0⟩, ⟨0, 1, 0⟩] [0, 1, 2]
      ⟨0, 0, 0⟩ (1/2) (by norm_num) (0, 1, 2) (by decide) 0 (by decide)
      (by norm_num) (by norm_num) (by norm_num) (by norm_num) (by norm_num) (by norm_num)
      2 (by decide)⟩
